import Mathlib

/-!
Verification of the DexScreener new-token filtering script.

The Python source keeps a module-level set `tracked_pairs` of pair addresses,
and a function `check_new_tokens` that fetches a JSON listing, skips
already-seen pairs, extracts a market snapshot per pair (with `.get` defaults
for liquidity and transaction counts, but plain indexing for `pairAddress`
and the `baseToken` fields), computes a buy/sell ratio, and classifies the
pair against fixed thresholds, accumulating reason strings.

The embedding below mirrors that code: optional JSON fields become `Option`
fields, a raised `KeyError` becomes `none` from the extraction step, the
function-level `except` clauses become the catch branch of `poll`, and the
mutable global set becomes an explicit `Finset String` threaded through.
Numbers are modelled with `ℚ` (liquidity, thresholds, ratio) and `ℤ`
(transaction counts).
-/

/-- A nested base-token JSON object; `symbol` and `name` may be absent. -/
structure RawToken where
  symbol : Option String
  name : Option String
deriving DecidableEq, Repr

/-- A nested liquidity JSON object; `usd` may be absent. -/
structure RawLiquidity where
  usd : Option ℚ
deriving DecidableEq, Repr

/-- The `m5` transaction-count window; `buys` and `sells` may be absent. -/
structure RawM5 where
  buys : Option ℤ
  sells : Option ℤ
deriving DecidableEq, Repr

/-- The `txns` JSON object; the `m5` window may be absent. -/
structure RawTxns where
  m5 : Option RawM5
deriving DecidableEq, Repr

/-- One pair object of the provider response; every field may be absent. -/
structure RawPair where
  pairAddress : Option String
  baseToken : Option RawToken
  liquidity : Option RawLiquidity
  txns : Option RawTxns
deriving DecidableEq, Repr

/-- The snapshot of one pair after field extraction (lines 62-77 of the
script): address, base-token strings, liquidity and the 5-minute counts. -/
structure PairSnapshot where
  pairAddress : String
  baseTokenSymbol : String
  baseTokenName : String
  liquidityUsd : ℚ
  buysM5 : ℤ
  sellsM5 : ℤ
deriving DecidableEq, Repr

/-- The threshold configuration: `MIN_LIQUIDITY_USD`, `MIN_TXNS_M5`,
`BUY_SELL_RATIO_MIN`, `BUY_SELL_RATIO_MAX`. -/
structure ThresholdConfig where
  minLiquidityUsd : ℚ
  minTxnsM5 : ℤ
  buySellRatioMin : ℚ
  buySellRatioMax : ℚ
deriving DecidableEq, Repr

/-- The default configuration values of the script. -/
def defaultConfig : ThresholdConfig :=
  { minLiquidityUsd := 5000
    minTxnsM5 := 10
    buySellRatioMin := 1 / 10
    buySellRatioMax := 10 }

/-- The classification outcome: the `is_trustworthy` flag and the ordered
list of accumulated `reasons`. -/
structure Verdict where
  isTrustworthy : Bool
  reasons : List String
deriving DecidableEq, Repr

/-- The buy/sell ratio of line 80:
`buys_m5 / sells_m5 if sells_m5 > 0 else (buys_m5 / 1 if buys_m5 > 0 else 1)`. -/
def buySellRatioOf (buys sells : ℤ) : ℚ :=
  if 0 < sells then (buys : ℚ) / (sells : ℚ)
  else if 0 < buys then (buys : ℚ) / 1
  else 1

/-- The reason string appended by the liquidity check (line 86). -/
def lowLiquidityReason (liq minLiq : ℚ) : String :=
  "Low liquidity ($" ++ toString liq ++ ") below minimum ($" ++ toString minLiq ++ ")"

/-- The reason string appended by the transaction-volume check (line 90). -/
def lowVolumeReason (total minT : ℤ) : String :=
  "Low transaction volume (" ++ toString total ++ " total) below minimum (" ++ toString minT ++ ")"

/-- The reason string appended by the ratio check (line 97). -/
def unbalancedRatioReason (r : ℚ) : String :=
  "Unbalanced buy/sell ratio (" ++ toString r ++ ")"

/-- The classifier (lines 80-99 of the script): the three checks run in
sequence, each one independently setting the flag to `false` and appending
its reason when it fails. -/
def classify (s : PairSnapshot) (cfg : ThresholdConfig) : Verdict :=
  let ratioVal := buySellRatioOf s.buysM5 s.sellsM5
  let st1 : Bool × List String :=
    if s.liquidityUsd < cfg.minLiquidityUsd
    then (false, [lowLiquidityReason s.liquidityUsd cfg.minLiquidityUsd])
    else (true, [])
  let st2 : Bool × List String :=
    if s.buysM5 + s.sellsM5 < cfg.minTxnsM5
    then (false, st1.2 ++ [lowVolumeReason (s.buysM5 + s.sellsM5) cfg.minTxnsM5])
    else st1
  let st3 : Bool × List String :=
    if ¬ (cfg.buySellRatioMin ≤ ratioVal ∧ ratioVal ≤ cfg.buySellRatioMax)
    then (false, st2.2 ++ [unbalancedRatioReason ratioVal])
    else st2
  { isTrustworthy := st3.1, reasons := st3.2 }

/-- Field extraction for one pair (lines 72-77), after the address was read:
`pair['baseToken']['symbol']` and `['name']` raise on absence (`none` here),
while liquidity and the `m5` counts fall back to their `.get` defaults. -/
def extractSnapshot (addr : String) (p : RawPair) : Option PairSnapshot :=
  match p.baseToken with
  | none => none
  | some bt =>
    match bt.symbol, bt.name with
    | some sym, some nm =>
      let liq := ((p.liquidity.getD { usd := none }).usd).getD 0
      let m5 := ((p.txns.getD { m5 := none }).m5).getD { buys := some 0, sells := some 0 }
      some { pairAddress := addr
             baseTokenSymbol := sym
             baseTokenName := nm
             liquidityUsd := liq
             buysM5 := m5.buys.getD 0
             sellsM5 := m5.sells.getD 0 }
    | _, _ => none

/-- The observable outcome of one cycle over the pair list: the seen set
after the cycle, the reports emitted (each pair is printed as soon as it is
classified), and whether an exception was raised and caught at the
function-level `except` clauses (lines 118-121). -/
structure CycleResult where
  seen : Finset String
  reports : List (PairSnapshot × Verdict)
  failed : Bool
deriving DecidableEq

/-- The per-pair loop of `check_new_tokens` (lines 61-115): read
`pair['pairAddress']` (raising on absence aborts the whole cycle, with the
reports already printed kept), skip addresses already tracked, add the
address to the set before the remaining extraction, and classify.  An
extraction error after the add also aborts the cycle, with the address left
in the set. -/
def processPairs (cfg : ThresholdConfig) : List RawPair → Finset String → CycleResult
  | [], seen => { seen := seen, reports := [], failed := false }
  | p :: rest, seen =>
    match p.pairAddress with
    | none => { seen := seen, reports := [], failed := true }
    | some addr =>
      if addr ∈ seen then
        processPairs cfg rest seen
      else
        match extractSnapshot addr p with
        | none => { seen := insert addr seen, reports := [], failed := true }
        | some snap =>
          let tail := processPairs cfg rest (insert addr seen)
          { seen := tail.seen
            reports := (snap, classify snap cfg) :: tail.reports
            failed := tail.failed }

/-- The parsed response body; the `pairs` field may be absent. -/
structure ResponseData where
  pairs : Option (List RawPair)
deriving DecidableEq

/-- The outcome of the fetch call (lines 52-54): a transport failure from
`requests.get`, a non-success status from `raise_for_status`, a body that
`response.json()` cannot parse, or a parsed body (`none` when falsy). -/
inductive FetchOutcome where
  | transportError : FetchOutcome
  | httpError : FetchOutcome
  | parseError : FetchOutcome
  | success : Option ResponseData → FetchOutcome
deriving DecidableEq

/-- One call of `check_new_tokens` (lines 46-121): every fetch-level failure
is caught before any pair is touched; an empty or `pairs`-less body returns
early; otherwise the pair loop runs, with its own exceptions caught at the
same function-level boundary. -/
def poll (cfg : ThresholdConfig) (f : FetchOutcome) (seen : Finset String) : CycleResult :=
  match f with
  | .transportError => { seen := seen, reports := [], failed := true }
  | .httpError => { seen := seen, reports := [], failed := true }
  | .parseError => { seen := seen, reports := [], failed := true }
  | .success none => { seen := seen, reports := [], failed := false }
  | .success (some d) =>
    match d.pairs with
    | none => { seen := seen, reports := [], failed := false }
    | some [] => { seen := seen, reports := [], failed := false }
    | some ps => processPairs cfg ps seen

/-- The number of reports in a list that carry a given pair address. -/
def addrCount (addr : String) (rs : List (PairSnapshot × Verdict)) : ℕ :=
  rs.countP (fun r => r.1.pairAddress == addr)

/-- The trace of cycle results over a sequence of fetch outcomes, threading
the seen set from one cycle to the next (the `while True` loop of `main`). -/
def pollTrace (cfg : ThresholdConfig) : List FetchOutcome → Finset String → List CycleResult
  | [], _ => []
  | f :: fs, seen => poll cfg f seen :: pollTrace cfg fs (poll cfg f seen).seen

/-- The seen set left after a sequence of poll cycles. -/
def runPolls (cfg : ThresholdConfig) : List FetchOutcome → Finset String → Finset String
  | [], seen => seen
  | f :: fs, seen => runPolls cfg fs (poll cfg f seen).seen

/-- The total number of reports carrying a given address across a trace. -/
def traceReportCount (addr : String) (cs : List CycleResult) : ℕ :=
  (cs.map (fun c => addrCount addr c.reports)).sum

/-- A successful extraction returns a snapshot carrying the address it was
given (the address read at line 62 is the one printed at line 109). -/
theorem extractSnapshot_pairAddress (a : String) (p : RawPair) (s : PairSnapshot)
    (h : extractSnapshot a p = some s) : s.pairAddress = a := by
  unfold extractSnapshot at h
  cases hbt : p.baseToken with
  | none => simp [hbt] at h
  | some bt =>
    cases hsym : bt.symbol with
    | none => simp [hbt, hsym] at h
    | some sym =>
      cases hnm : bt.name with
      | none => simp [hbt, hsym, hnm] at h
      | some nm =>
        simp only [hbt, hsym, hnm, Option.some.injEq] at h
        cases h
        rfl

/-- The seen set only grows while the pair loop runs. -/
theorem processPairs_seen_mono (cfg : ThresholdConfig) (ps : List RawPair)
    (seen : Finset String) : seen ⊆ (processPairs cfg ps seen).seen := by
  induction ps generalizing seen with
  | nil => simp [processPairs]
  | cons p rest ih =>
    simp only [processPairs]
    cases p.pairAddress with
    | none => exact Finset.Subset.refl _
    | some addr =>
      by_cases hmem : addr ∈ seen
      · simpa [hmem] using ih seen
      · cases hx : extractSnapshot addr p with
        | none => simp [hmem, hx, Finset.subset_insert]
        | some snap =>
          simp only [hmem, hx, if_neg]
          exact (Finset.subset_insert addr seen).trans (ih (insert addr seen))

/-- Neither the seen set nor the failure flag of a cycle depends on the
threshold configuration: only the verdicts inside the reports do. -/
theorem processPairs_config_indep (cfg cfg' : ThresholdConfig) (ps : List RawPair)
    (seen : Finset String) :
    (processPairs cfg ps seen).seen = (processPairs cfg' ps seen).seen ∧
    (processPairs cfg ps seen).failed = (processPairs cfg' ps seen).failed := by
  induction ps generalizing seen with
  | nil => simp [processPairs]
  | cons p rest ih =>
    simp only [processPairs]
    cases p.pairAddress with
    | none => exact ⟨rfl, rfl⟩
    | some addr =>
      by_cases hmem : addr ∈ seen
      · simpa [hmem] using ih seen
      · cases hx : extractSnapshot addr p with
        | none => simp [hmem, hx]
        | some snap => simpa [hmem, hx] using ih (insert addr seen)

/-- Unfolding: a pair whose `pairAddress` key is absent raises, aborting the
cycle with the set and the reports so far unchanged. -/
theorem processPairs_cons_noaddr (cfg : ThresholdConfig) (p : RawPair) (rest : List RawPair)
    (seen : Finset String) (h : p.pairAddress = none) :
    processPairs cfg (p :: rest) seen = { seen := seen, reports := [], failed := true } := by
  simp [processPairs, h]

/-- Unfolding: an already-tracked address is skipped. -/
theorem processPairs_cons_skip (cfg : ThresholdConfig) (p : RawPair) (rest : List RawPair)
    (seen : Finset String) (a : String) (ha : p.pairAddress = some a) (hmem : a ∈ seen) :
    processPairs cfg (p :: rest) seen = processPairs cfg rest seen := by
  simp [processPairs, ha, hmem]

/-- Unfolding: a fresh address whose remaining extraction raises aborts the
cycle, with the address already added to the set. -/
theorem processPairs_cons_fail (cfg : ThresholdConfig) (p : RawPair) (rest : List RawPair)
    (seen : Finset String) (a : String) (ha : p.pairAddress = some a) (hmem : a ∉ seen)
    (hx : extractSnapshot a p = none) :
    processPairs cfg (p :: rest) seen = { seen := insert a seen, reports := [], failed := true } := by
  simp [processPairs, ha, hmem, hx]

/-- Unfolding: a fresh address with a successful extraction is classified and
reported, and the loop continues with the address added. -/
theorem processPairs_cons_ok (cfg : ThresholdConfig) (p : RawPair) (rest : List RawPair)
    (seen : Finset String) (a : String) (snap : PairSnapshot)
    (ha : p.pairAddress = some a) (hmem : a ∉ seen) (hx : extractSnapshot a p = some snap) :
    processPairs cfg (p :: rest) seen =
      { seen := (processPairs cfg rest (insert a seen)).seen
        reports := (snap, classify snap cfg) :: (processPairs cfg rest (insert a seen)).reports
        failed := (processPairs cfg rest (insert a seen)).failed } := by
  simp [processPairs, ha, hmem, hx]

/-- A cycle started with the address already tracked never reports it. -/
theorem addrCount_zero_of_mem (cfg : ThresholdConfig) (ps : List RawPair)
    (seen : Finset String) (addr : String) (h : addr ∈ seen) :
    addrCount addr (processPairs cfg ps seen).reports = 0 := by
  induction ps generalizing seen with
  | nil => simp [processPairs, addrCount]
  | cons p rest ih =>
    cases hpa : p.pairAddress with
    | none => simp [processPairs_cons_noaddr cfg p rest seen hpa, addrCount]
    | some a =>
      by_cases hmem : a ∈ seen
      · rw [processPairs_cons_skip cfg p rest seen a hpa hmem]
        exact ih seen h
      · have hne : (a == addr) = false := by
          simp only [beq_eq_false_iff_ne, ne_eq]
          exact fun he => hmem (he ▸ h)
        cases hx : extractSnapshot a p with
        | none => simp [processPairs_cons_fail cfg p rest seen a hpa hmem hx, addrCount]
        | some snap =>
          have hsnap : snap.pairAddress = a := extractSnapshot_pairAddress a p snap hx
          rw [processPairs_cons_ok cfg p rest seen a snap hpa hmem hx]
          have htail := ih (insert a seen) (Finset.mem_insert_of_mem h)
          simp [addrCount, List.countP_cons, hsnap, hne] at htail ⊢
          exact htail

/-- Each cycle reports a given address at most once: the address joins the
seen set right before classification, so a later occurrence in the same
response is skipped. -/
theorem addrCount_le_one (cfg : ThresholdConfig) (ps : List RawPair)
    (seen : Finset String) (addr : String) :
    addrCount addr (processPairs cfg ps seen).reports ≤ 1 := by
  induction ps generalizing seen with
  | nil => simp [processPairs, addrCount]
  | cons p rest ih =>
    cases hpa : p.pairAddress with
    | none => simp [processPairs_cons_noaddr cfg p rest seen hpa, addrCount]
    | some a =>
      by_cases hmem : a ∈ seen
      · rw [processPairs_cons_skip cfg p rest seen a hpa hmem]
        exact ih seen
      · cases hx : extractSnapshot a p with
        | none => simp [processPairs_cons_fail cfg p rest seen a hpa hmem hx, addrCount]
        | some snap =>
          have hsnap : snap.pairAddress = a := extractSnapshot_pairAddress a p snap hx
          rw [processPairs_cons_ok cfg p rest seen a snap hpa hmem hx]
          by_cases he : a = addr
          · have h0 := addrCount_zero_of_mem cfg rest (insert a seen) addr
              (he ▸ Finset.mem_insert_self a seen)
            simp [addrCount, List.countP_cons, hsnap, he] at h0 ⊢
            exact h0
          · have hne : (snap.pairAddress == addr) = false := by
              simp [hsnap, he]
            have := ih (insert a seen)
            simp [addrCount, List.countP_cons, hne] at this ⊢
            omega

/-- An address reported during a cycle is in the seen set afterwards. -/
theorem mem_seen_of_addrCount_pos (cfg : ThresholdConfig) (ps : List RawPair)
    (seen : Finset String) (addr : String)
    (h : 0 < addrCount addr (processPairs cfg ps seen).reports) :
    addr ∈ (processPairs cfg ps seen).seen := by
  induction ps generalizing seen with
  | nil => simp [processPairs, addrCount] at h
  | cons p rest ih =>
    cases hpa : p.pairAddress with
    | none =>
      rw [processPairs_cons_noaddr cfg p rest seen hpa] at h
      simp [addrCount] at h
    | some a =>
      by_cases hmem : a ∈ seen
      · rw [processPairs_cons_skip cfg p rest seen a hpa hmem] at h ⊢
        exact ih seen h
      · cases hx : extractSnapshot a p with
        | none =>
          rw [processPairs_cons_fail cfg p rest seen a hpa hmem hx] at h
          simp [addrCount] at h
        | some snap =>
          have hsnap : snap.pairAddress = a := extractSnapshot_pairAddress a p snap hx
          rw [processPairs_cons_ok cfg p rest seen a snap hpa hmem hx] at h ⊢
          by_cases he : a = addr
          · exact he ▸ processPairs_seen_mono cfg rest (insert a seen)
              (Finset.mem_insert_self a seen)
          · have hne : (snap.pairAddress == addr) = false := by
              simp [hsnap, he]
            simp only [addrCount, List.countP_cons, hne, if_false] at h
            exact ih (insert a seen) (by simpa [addrCount] using h)

/-- Splitting a response after a failure-free prefix: the loop processes the
prefix, then continues over the suffix from the prefix's seen set, and the
reports concatenate in response order. -/
theorem processPairs_append (cfg : ThresholdConfig) (pre rest : List RawPair)
    (seen : Finset String) (h : (processPairs cfg pre seen).failed = false) :
    processPairs cfg (pre ++ rest) seen =
      { seen := (processPairs cfg rest (processPairs cfg pre seen).seen).seen
        reports := (processPairs cfg pre seen).reports ++
          (processPairs cfg rest (processPairs cfg pre seen).seen).reports
        failed := (processPairs cfg rest (processPairs cfg pre seen).seen).failed } := by
  induction pre generalizing seen with
  | nil => simp [processPairs]
  | cons p pre' ih =>
    cases hpa : p.pairAddress with
    | none =>
      rw [processPairs_cons_noaddr cfg p pre' seen hpa] at h
      simp at h
    | some a =>
      by_cases hmem : a ∈ seen
      · rw [processPairs_cons_skip cfg p pre' seen a hpa hmem] at h ⊢
        rw [List.cons_append, processPairs_cons_skip cfg p (pre' ++ rest) seen a hpa hmem]
        exact ih seen h
      · cases hx : extractSnapshot a p with
        | none =>
          rw [processPairs_cons_fail cfg p pre' seen a hpa hmem hx] at h
          simp at h
        | some snap =>
          rw [processPairs_cons_ok cfg p pre' seen a snap hpa hmem hx] at h ⊢
          rw [List.cons_append, processPairs_cons_ok cfg p (pre' ++ rest) seen a snap hpa hmem hx]
          simp only at h
          rw [ih (insert a seen) h]
          simp

/-- The seen set only grows across one poll cycle. -/
theorem poll_seen_mono (cfg : ThresholdConfig) (f : FetchOutcome) (seen : Finset String) :
    seen ⊆ (poll cfg f seen).seen := by
  cases f with
  | transportError => simp [poll]
  | httpError => simp [poll]
  | parseError => simp [poll]
  | success data =>
    cases data with
    | none => simp [poll]
    | some d =>
      cases hps : d.pairs with
      | none => simp [poll, hps]
      | some ps =>
        cases ps with
        | nil => simp [poll, hps]
        | cons p rest =>
          simpa [poll, hps] using processPairs_seen_mono cfg (p :: rest) seen

/-- A poll started with the address already tracked never reports it. -/
theorem poll_addrCount_zero_of_mem (cfg : ThresholdConfig) (f : FetchOutcome)
    (seen : Finset String) (addr : String) (h : addr ∈ seen) :
    addrCount addr (poll cfg f seen).reports = 0 := by
  cases f with
  | transportError => simp [poll, addrCount]
  | httpError => simp [poll, addrCount]
  | parseError => simp [poll, addrCount]
  | success data =>
    cases data with
    | none => simp [poll, addrCount]
    | some d =>
      cases hps : d.pairs with
      | none => simp [poll, hps, addrCount]
      | some ps =>
        cases ps with
        | nil => simp [poll, hps, addrCount]
        | cons p rest =>
          simpa [poll, hps] using addrCount_zero_of_mem cfg (p :: rest) seen addr h

/-- One poll cycle reports a given address at most once. -/
theorem poll_addrCount_le_one (cfg : ThresholdConfig) (f : FetchOutcome)
    (seen : Finset String) (addr : String) :
    addrCount addr (poll cfg f seen).reports ≤ 1 := by
  cases f with
  | transportError => simp [poll, addrCount]
  | httpError => simp [poll, addrCount]
  | parseError => simp [poll, addrCount]
  | success data =>
    cases data with
    | none => simp [poll, addrCount]
    | some d =>
      cases hps : d.pairs with
      | none => simp [poll, hps, addrCount]
      | some ps =>
        cases ps with
        | nil => simp [poll, hps, addrCount]
        | cons p rest =>
          simpa [poll, hps] using addrCount_le_one cfg (p :: rest) seen addr

/-- An address reported by a poll cycle is tracked afterwards. -/
theorem poll_mem_seen_of_addrCount_pos (cfg : ThresholdConfig) (f : FetchOutcome)
    (seen : Finset String) (addr : String)
    (h : 0 < addrCount addr (poll cfg f seen).reports) :
    addr ∈ (poll cfg f seen).seen := by
  cases f with
  | transportError => simp [poll, addrCount] at h
  | httpError => simp [poll, addrCount] at h
  | parseError => simp [poll, addrCount] at h
  | success data =>
    cases data with
    | none => simp [poll, addrCount] at h
    | some d =>
      cases hps : d.pairs with
      | none => simp [poll, hps, addrCount] at h
      | some ps =>
        cases ps with
        | nil => simp [poll, hps, addrCount] at h
        | cons p rest =>
          simp only [poll, hps] at h ⊢
          exact mem_seen_of_addrCount_pos cfg (p :: rest) seen addr h

/-- The seen set only grows across a whole sequence of poll cycles. -/
theorem runPolls_mono (cfg : ThresholdConfig) (fs : List FetchOutcome)
    (seen : Finset String) : seen ⊆ runPolls cfg fs seen := by
  induction fs generalizing seen with
  | nil => simp [runPolls]
  | cons f fs' ih =>
    exact (poll_seen_mono cfg f seen).trans (ih (poll cfg f seen).seen)

/-- An address already tracked is never reported again for the rest of the
process lifetime, whatever the provider returns. -/
theorem traceReportCount_zero_of_mem (cfg : ThresholdConfig) (fs : List FetchOutcome)
    (seen : Finset String) (addr : String) (h : addr ∈ seen) :
    traceReportCount addr (pollTrace cfg fs seen) = 0 := by
  induction fs generalizing seen with
  | nil => simp [pollTrace, traceReportCount]
  | cons f fs' ih =>
    simp only [pollTrace, traceReportCount, List.map_cons, List.sum_cons]
    have h1 := poll_addrCount_zero_of_mem cfg f seen addr h
    have h2 := ih (poll cfg f seen).seen (poll_seen_mono cfg f seen h)
    simp only [traceReportCount] at h2
    omega

/-- Across a whole process lifetime, a given pair address is reported at most
once, whatever the provider returns in each cycle. -/
theorem traceReportCount_le_one (cfg : ThresholdConfig) (fs : List FetchOutcome)
    (seen : Finset String) (addr : String) :
    traceReportCount addr (pollTrace cfg fs seen) ≤ 1 := by
  induction fs generalizing seen with
  | nil => simp [pollTrace, traceReportCount]
  | cons f fs' ih =>
    simp only [pollTrace, traceReportCount, List.map_cons, List.sum_cons]
    by_cases hpos : 0 < addrCount addr (poll cfg f seen).reports
    · have hmem := poll_mem_seen_of_addrCount_pos cfg f seen addr hpos
      have h2 := traceReportCount_zero_of_mem cfg fs' (poll cfg f seen).seen addr hmem
      have h1 := poll_addrCount_le_one cfg f seen addr
      simp only [traceReportCount] at h2
      omega
    · have h2 := ih (poll cfg f seen).seen
      simp only [traceReportCount] at h2
      omega

/-- C1: for every snapshot and threshold configuration, the pair is marked
trustworthy iff all three checks pass (liquidity at least the minimum,
buys + sells at least the minimum count, ratio within the inclusive bounds);
each check's reason appears iff that check failed, the reasons appear in the
fixed order liquidity, volume, ratio, and the reasons list is empty exactly
when the verdict is trustworthy. -/
theorem classify_trustworthy_iff_and_reasons (s : PairSnapshot) (cfg : ThresholdConfig) :
    ((classify s cfg).isTrustworthy = true ↔
      (cfg.minLiquidityUsd ≤ s.liquidityUsd ∧
       cfg.minTxnsM5 ≤ s.buysM5 + s.sellsM5 ∧
       cfg.buySellRatioMin ≤ buySellRatioOf s.buysM5 s.sellsM5 ∧
       buySellRatioOf s.buysM5 s.sellsM5 ≤ cfg.buySellRatioMax)) ∧
    (classify s cfg).reasons =
      (if s.liquidityUsd < cfg.minLiquidityUsd
       then [lowLiquidityReason s.liquidityUsd cfg.minLiquidityUsd] else []) ++
      (if s.buysM5 + s.sellsM5 < cfg.minTxnsM5
       then [lowVolumeReason (s.buysM5 + s.sellsM5) cfg.minTxnsM5] else []) ++
      (if ¬ (cfg.buySellRatioMin ≤ buySellRatioOf s.buysM5 s.sellsM5 ∧
             buySellRatioOf s.buysM5 s.sellsM5 ≤ cfg.buySellRatioMax)
       then [unbalancedRatioReason (buySellRatioOf s.buysM5 s.sellsM5)] else []) ∧
    ((classify s cfg).reasons = [] ↔ (classify s cfg).isTrustworthy = true) := by
  simp only [classify]
  split_ifs with h1 h2 h3 h3 h2 h3 h3 <;>
    simp_all [not_lt]

/-- C2: the computed buy/sell ratio is buys divided by sells when sells is
positive, buys when sells is zero and buys positive, and 1 when both are
zero. -/
theorem buySellRatioOf_cases (b s : ℤ) :
    (0 < s → buySellRatioOf b s = (b : ℚ) / (s : ℚ)) ∧
    (s = 0 → 0 < b → buySellRatioOf b s = (b : ℚ)) ∧
    (s = 0 → b = 0 → buySellRatioOf b s = 1) := by
  refine ⟨fun hs => ?_, fun hs hb => ?_, fun hs hb => ?_⟩
  · simp [buySellRatioOf, hs]
  · simp [buySellRatioOf, hs, hb]
  · simp [buySellRatioOf, hs, hb]

/-- Witness for C2: the three ratio cases at the concrete inputs (3, 2),
(3, 0) and (0, 0). -/
theorem buySellRatioOf_cases_witness :
    buySellRatioOf 3 2 = (3 : ℚ) / (2 : ℚ) ∧
    buySellRatioOf 3 0 = (3 : ℚ) ∧
    buySellRatioOf 0 0 = 1 :=
  ⟨(buySellRatioOf_cases 3 2).1 (by decide),
   (buySellRatioOf_cases 3 0).2.1 rfl (by decide),
   (buySellRatioOf_cases 0 0).2.2 rfl rfl⟩

/-- C4: a cycle whose whole fetch fails (transport error, non-success HTTP
status, or unparseable body) is caught at the poll boundary, produces no
reports, and leaves the seen set exactly as it was. -/
theorem poll_fetch_failure_empty (cfg : ThresholdConfig) (seen : Finset String) :
    poll cfg .transportError seen = { seen := seen, reports := [], failed := true } ∧
    poll cfg .httpError seen = { seen := seen, reports := [], failed := true } ∧
    poll cfg .parseError seen = { seen := seen, reports := [], failed := true } :=
  ⟨rfl, rfl, rfl⟩

/-- C6: an empty response body, a body without the `pairs` field, or an empty
listing all make the poll return no reports as a normal non-error outcome,
with the seen set unchanged. -/
theorem poll_empty_listing_noop (cfg : ThresholdConfig) (seen : Finset String) :
    poll cfg (.success none) seen = { seen := seen, reports := [], failed := false } ∧
    poll cfg (.success (some { pairs := none })) seen
      = { seen := seen, reports := [], failed := false } ∧
    poll cfg (.success (some { pairs := some [] })) seen
      = { seen := seen, reports := [], failed := false } :=
  ⟨rfl, rfl, rfl⟩

/-- C8: the classifier is a pure function of the snapshot and the thresholds,
and classification never influences the tracked set: two evaluations agree,
and the seen set and failure flag of any cycle are the same under any two
threshold configurations, which only feed the classifier. -/
theorem classify_pure_and_seen_indep (s : PairSnapshot) (cfg cfg' : ThresholdConfig)
    (f : FetchOutcome) (seen : Finset String) :
    classify s cfg = classify s cfg ∧
    (poll cfg f seen).seen = (poll cfg' f seen).seen ∧
    (poll cfg f seen).failed = (poll cfg' f seen).failed := by
  refine ⟨rfl, ?_, ?_⟩ <;>
  · cases f with
    | transportError => simp [poll]
    | httpError => simp [poll]
    | parseError => simp [poll]
    | success data =>
      cases data with
      | none => simp [poll]
      | some d =>
        cases hps : d.pairs with
        | none => simp [poll, hps]
        | some ps =>
          cases ps with
          | nil => simp [poll, hps]
          | cons p rest =>
            simp only [poll, hps]
            first
            | exact (processPairs_config_indep cfg cfg' (p :: rest) seen).1
            | exact (processPairs_config_indep cfg cfg' (p :: rest) seen).2

/-- C3: across any sequence of poll cycles, the seen set never shrinks, a
given pair address yields at most one report in the whole lifetime, and an
address already tracked at the start is never reported again — whatever
field values the provider returns later. -/
theorem pair_reported_at_most_once (cfg : ThresholdConfig) (fs : List FetchOutcome)
    (seen : Finset String) (addr : String) :
    seen ⊆ runPolls cfg fs seen ∧
    traceReportCount addr (pollTrace cfg fs seen) ≤ 1 ∧
    (addr ∈ seen → traceReportCount addr (pollTrace cfg fs seen) = 0) :=
  ⟨runPolls_mono cfg fs seen, traceReportCount_le_one cfg fs seen addr,
   fun h => traceReportCount_zero_of_mem cfg fs seen addr h⟩

/-- A well-formed pair object with address A. -/
def rawPairA : RawPair :=
  { pairAddress := some "A"
    baseToken := some { symbol := some "TKA", name := some "Token A" }
    liquidity := some { usd := some 10000 }
    txns := some { m5 := some { buys := some 20, sells := some 15 } } }

/-- The same pair address A with different market data (a later snapshot of
the same market). -/
def rawPairADup : RawPair :=
  { pairAddress := some "A"
    baseToken := some { symbol := some "TKA", name := some "Token A" }
    liquidity := some { usd := some 123 }
    txns := some { m5 := some { buys := some 1, sells := some 99 } } }

/-- A well-formed pair object with address B. -/
def rawPairB : RawPair :=
  { pairAddress := some "B"
    baseToken := some { symbol := some "TKB", name := some "Token B" }
    liquidity := some { usd := some 8000 }
    txns := some { m5 := some { buys := some 12, sells := some 11 } } }

/-- A pair object whose `pairAddress` key is absent. -/
def rawPairNoAddress : RawPair :=
  { pairAddress := none
    baseToken := some { symbol := some "TKX", name := some "Token X" }
    liquidity := some { usd := some 7000 }
    txns := some { m5 := some { buys := some 9, sells := some 9 } } }

/-- A well-formed pair object with address X. -/
def rawPairXOk : RawPair :=
  { pairAddress := some "X"
    baseToken := some { symbol := some "TKX", name := some "Token X" }
    liquidity := some { usd := some 9000 }
    txns := some { m5 := some { buys := some 12, sells := some 8 } } }

/-- A pair object with an address but no `baseToken` object. -/
def rawPairNoBase : RawPair :=
  { pairAddress := some "X"
    baseToken := none
    liquidity := some { usd := some 9000 }
    txns := some { m5 := some { buys := some 12, sells := some 8 } } }

/-- Witness for C3: with address A already tracked, a later cycle whose
response carries A with fresh market data reports it zero times. -/
theorem pair_reported_at_most_once_witness :
    ({"A"} : Finset String) ⊆
      runPolls defaultConfig [.success (some { pairs := some [rawPairADup] })] {"A"} ∧
    traceReportCount "A"
      (pollTrace defaultConfig [.success (some { pairs := some [rawPairADup] })] {"A"}) ≤ 1 ∧
    traceReportCount "A"
      (pollTrace defaultConfig [.success (some { pairs := some [rawPairADup] })] {"A"}) = 0 :=
  ⟨(pair_reported_at_most_once defaultConfig
      [.success (some { pairs := some [rawPairADup] })] {"A"} "A").1,
   (pair_reported_at_most_once defaultConfig
      [.success (some { pairs := some [rawPairADup] })] {"A"} "A").2.1,
   (pair_reported_at_most_once defaultConfig
      [.success (some { pairs := some [rawPairADup] })] {"A"} "A").2.2 (by decide)⟩

/-- C5 as stated fails on the code: in the response A, then a pair with no
address, then B, the malformed entry aborts the rest of the cycle, so B is
neither classified nor tracked, instead of being processed as the claim
requires. -/
theorem malformed_pair_aborts_rest_counterexample :
    "B" ∉ (processPairs defaultConfig [rawPairA, rawPairNoAddress, rawPairB] ∅).seen ∧
    addrCount "B" (processPairs defaultConfig [rawPairA, rawPairNoAddress, rawPairB] ∅).reports = 0 ∧
    (processPairs defaultConfig [rawPairA, rawPairNoAddress, rawPairB] ∅).failed = true :=
  ⟨by decide, by decide, by decide⟩

/-- C5 amended: a pair whose address is absent is itself not added to the
seen set, but it aborts the remainder of the cycle: the pairs before it keep
their reports and seen-set entries, the cycle is marked failed, and the
pairs after it are not processed at all in that cycle. -/
theorem missing_address_aborts_cycle (cfg : ThresholdConfig) (pre post : List RawPair)
    (p : RawPair) (seen : Finset String)
    (hpre : (processPairs cfg pre seen).failed = false)
    (haddr : p.pairAddress = none) :
    processPairs cfg (pre ++ p :: post) seen =
      { seen := (processPairs cfg pre seen).seen
        reports := (processPairs cfg pre seen).reports
        failed := true } := by
  rw [processPairs_append cfg pre (p :: post) seen hpre,
      processPairs_cons_noaddr cfg p post _ haddr]
  simp

/-- Witness for the amended C5 at the concrete response A, no-address, B. -/
theorem missing_address_aborts_cycle_witness :
    processPairs defaultConfig [rawPairA, rawPairNoAddress, rawPairB] ∅ =
      { seen := (processPairs defaultConfig [rawPairA] ∅).seen
        reports := (processPairs defaultConfig [rawPairA] ∅).reports
        failed := true } :=
  missing_address_aborts_cycle defaultConfig [rawPairA] [rawPairB] rawPairNoAddress ∅
    (by decide) rfl

/-- C7 as stated fails on the code: a pair whose `baseToken` object is absent
yields no snapshot at all — there is no default for the base-token symbol and
name; the lookup raises and the cycle is aborted with the address already
tracked. -/
theorem missing_base_token_counterexample :
    extractSnapshot "X" rawPairNoBase = none ∧
    (processPairs defaultConfig [rawPairNoBase] ∅).reports = [] ∧
    (processPairs defaultConfig [rawPairNoBase] ∅).failed = true ∧
    "X" ∈ (processPairs defaultConfig [rawPairNoBase] ∅).seen :=
  ⟨rfl, by decide, by decide, by decide⟩

/-- C7 amended: an absent `liquidity` object or absent `usd` field defaults
the snapshot liquidity to 0, an absent `txns` object, absent `m5` window or
absent `buys`/`sells` count defaults the respective count to 0 — but the
nested base-token object and its `symbol` and `name` strings have no
default: their absence makes the extraction fail instead of building a
snapshot. -/
theorem extraction_defaults (addr sym nm : String) (liq : Option RawLiquidity)
    (tx : Option RawTxns) (bo so : Option ℤ) (no : Option String) :
    (extractSnapshot addr
      { pairAddress := some addr,
        baseToken := some { symbol := some sym, name := some nm },
        liquidity := none, txns := tx }).map PairSnapshot.liquidityUsd = some 0 ∧
    (extractSnapshot addr
      { pairAddress := some addr,
        baseToken := some { symbol := some sym, name := some nm },
        liquidity := some { usd := none }, txns := tx }).map PairSnapshot.liquidityUsd
      = some 0 ∧
    (extractSnapshot addr
      { pairAddress := some addr,
        baseToken := some { symbol := some sym, name := some nm },
        liquidity := liq, txns := none }).map (fun s => (s.buysM5, s.sellsM5))
      = some (0, 0) ∧
    (extractSnapshot addr
      { pairAddress := some addr,
        baseToken := some { symbol := some sym, name := some nm },
        liquidity := liq, txns := some { m5 := none } }).map (fun s => (s.buysM5, s.sellsM5))
      = some (0, 0) ∧
    (extractSnapshot addr
      { pairAddress := some addr,
        baseToken := some { symbol := some sym, name := some nm },
        liquidity := liq,
        txns := some { m5 := some { buys := none, sells := so } } }).map
      PairSnapshot.buysM5 = some 0 ∧
    (extractSnapshot addr
      { pairAddress := some addr,
        baseToken := some { symbol := some sym, name := some nm },
        liquidity := liq,
        txns := some { m5 := some { buys := bo, sells := none } } }).map
      PairSnapshot.sellsM5 = some 0 ∧
    extractSnapshot addr
      { pairAddress := some addr, baseToken := none,
        liquidity := liq, txns := tx } = none ∧
    extractSnapshot addr
      { pairAddress := some addr,
        baseToken := some { symbol := none, name := no },
        liquidity := liq, txns := tx } = none ∧
    extractSnapshot addr
      { pairAddress := some addr,
        baseToken := some { symbol := some sym, name := none },
        liquidity := liq, txns := tx } = none :=
  ⟨rfl, rfl, rfl, rfl, rfl, rfl, rfl, rfl, rfl⟩

/-- C9: when a pair's extraction raises after its address joined the seen set
(a fresh address whose base-token fields are missing), the cycle aborts but
the address stays tracked: it is reported neither in that cycle nor in any
later cycle of the process lifetime, although it was never classified. -/
theorem failed_extraction_quarantines_address (cfg cfg' : ThresholdConfig)
    (pre post : List RawPair) (p : RawPair) (seen : Finset String) (addr : String)
    (fs : List FetchOutcome)
    (hpre : (processPairs cfg pre seen).failed = false)
    (haddr : p.pairAddress = some addr)
    (hnew : addr ∉ (processPairs cfg pre seen).seen)
    (hfail : extractSnapshot addr p = none) :
    addr ∈ (processPairs cfg (pre ++ p :: post) seen).seen ∧
    addrCount addr (processPairs cfg (pre ++ p :: post) seen).reports = 0 ∧
    traceReportCount addr
      (pollTrace cfg' fs (processPairs cfg (pre ++ p :: post) seen).seen) = 0 := by
  rw [processPairs_append cfg pre (p :: post) seen hpre,
      processPairs_cons_fail cfg p post _ addr haddr hnew hfail]
  have hzero : addrCount addr (processPairs cfg pre seen).reports = 0 := by
    by_contra hne
    exact hnew (mem_seen_of_addrCount_pos cfg pre seen addr (Nat.pos_of_ne_zero hne))
  refine ⟨Finset.mem_insert_self addr _, ?_, ?_⟩
  · simpa [addrCount] using hzero
  · exact traceReportCount_zero_of_mem cfg' fs _ addr (Finset.mem_insert_self addr _)

/-- Witness for C9: after the cycle A then X-without-baseToken, the address X
is tracked, unreported, and stays unreported in a later cycle that carries a
well-formed X. -/
theorem failed_extraction_quarantines_address_witness :
    "X" ∈ (processPairs defaultConfig ([rawPairA] ++ rawPairNoBase :: []) ∅).seen ∧
    addrCount "X" (processPairs defaultConfig ([rawPairA] ++ rawPairNoBase :: []) ∅).reports = 0 ∧
    traceReportCount "X"
      (pollTrace defaultConfig [.success (some { pairs := some [rawPairXOk] })]
        (processPairs defaultConfig ([rawPairA] ++ rawPairNoBase :: []) ∅).seen) = 0 :=
  failed_extraction_quarantines_address defaultConfig defaultConfig
    [rawPairA] [] rawPairNoBase ∅ "X"
    [.success (some { pairs := some [rawPairXOk] })]
    (by decide) rfl (by decide) rfl

/-- C10: within a single response, a pair address produces at most one
report, and an occurrence whose address is already tracked after the pairs
before it — in particular a repeat of an earlier occurrence in the same
response — is skipped outright: the cycle result is the same as if that
occurrence were absent. -/
theorem duplicate_occurrence_skipped (cfg : ThresholdConfig) (pre post ps : List RawPair)
    (p : RawPair) (seen : Finset String) (addr : String)
    (hpre : (processPairs cfg pre seen).failed = false)
    (haddr : p.pairAddress = some addr)
    (hdup : addr ∈ (processPairs cfg pre seen).seen) :
    processPairs cfg (pre ++ p :: post) seen = processPairs cfg (pre ++ post) seen ∧
    addrCount addr (processPairs cfg ps seen).reports ≤ 1 := by
  constructor
  · rw [processPairs_append cfg pre (p :: post) seen hpre,
        processPairs_append cfg pre post seen hpre,
        processPairs_cons_skip cfg p post _ addr haddr hdup]
  · exact addrCount_le_one cfg ps seen addr

/-- Witness for C10: the response A, A-with-different-data, B collapses to
the response A, B, and address A is reported at most once in it. -/
theorem duplicate_occurrence_skipped_witness :
    processPairs defaultConfig ([rawPairA] ++ rawPairADup :: [rawPairB]) ∅ =
      processPairs defaultConfig ([rawPairA] ++ [rawPairB]) ∅ ∧
    addrCount "A"
      (processPairs defaultConfig ([rawPairA] ++ rawPairADup :: [rawPairB]) ∅).reports ≤ 1 :=
  duplicate_occurrence_skipped defaultConfig [rawPairA] [rawPairB]
    ([rawPairA] ++ rawPairADup :: [rawPairB]) rawPairADup ∅ "A"
    (by decide) rfl (by decide)
